import Mathlib

/-!
Verification of the recommendation pipeline of `ai_recommendation_system`.

The definitions below are a shallow embedding of the Python sources:
`backend/hybrid_recommend.py` (HybridRecommender), `backend/content_filtering.py`
(ContentBasedRecommender), `backend/rl_agent.py` (RLAgent),
`backend/fairness_re_ranker.py` and `backend/fairness_checks.py`.
Python floats are modelled as rationals (`ℚ`), pandas data frames as lists,
dictionaries as functions with explicit `Option`/default handling, and the
external collaborators (trained SVD model, cosine-similarity matrix, loaded
CSV data) as parameters.  A Python function that can raise an exception that
escapes to its caller is modelled with an `Option` result.
-/

namespace RecSys

/-! ### Stable descending sort

Python's `list.sort(key=..., reverse=True)` and `sorted(..., reverse=True)`
are stable sorts: elements are ordered by descending key, and elements with
equal keys keep their original relative order.  `List.insertionSort` with the
relation `key b ≤ key a` implements exactly this. -/

/-- Stable sort of `l` by `key`, largest key first; models Python's stable
`sort`/`sorted` with `reverse=True`. -/
def sortByDesc {α : Type} (key : α → ℚ) (l : List α) : List α :=
  List.insertionSort (fun a b => key b ≤ key a) l

/-- The list `l` is (weakly) descending with respect to `key`. -/
abbrev SortedDescBy {α : Type} (key : α → ℚ) (l : List α) : Prop :=
  List.Pairwise (fun a b => key b ≤ key a) l

theorem sortByDesc_perm {α : Type} (key : α → ℚ) (l : List α) :
    List.Perm (sortByDesc key l) l :=
  List.perm_insertionSort _ l

theorem sortByDesc_sorted {α : Type} (key : α → ℚ) (l : List α) :
    SortedDescBy key (sortByDesc key l) :=
  @List.sorted_insertionSort α (fun a b => key b ≤ key a) _
    ⟨fun a b => le_total (key b) (key a)⟩
    ⟨fun _ _ _ h₁ h₂ => le_trans h₂ h₁⟩ l

theorem sortByDesc_nodup {α : Type} (key : α → ℚ) {l : List α} (h : l.Nodup) :
    (sortByDesc key l).Nodup :=
  ((sortByDesc_perm key l).nodup_iff).mpr h

theorem sortByDesc_mem {α : Type} (key : α → ℚ) (l : List α) (x : α) :
    x ∈ sortByDesc key l ↔ x ∈ l :=
  (sortByDesc_perm key l).mem_iff

/-! Stability: sorting does not disturb the relative order of elements with
equal keys.  We express this through `filter`: the sub-list of elements whose
key equals any fixed value `k` is unchanged by the sort. -/

theorem orderedInsert_filter_key {α : Type} (key : α → ℚ) (x : α) (k : ℚ) :
    ∀ s : List α, SortedDescBy key s →
      (List.orderedInsert (fun a b => key b ≤ key a) x s).filter
          (fun y => decide (key y = k)) =
        if key x = k then
          x :: s.filter (fun y => decide (key y = k))
        else s.filter (fun y => decide (key y = k))
  | [], _ => by
    by_cases hx : key x = k <;> simp [List.orderedInsert, List.filter_cons, hx]
  | y :: ys, hs => by
    have hys : SortedDescBy key ys := List.Pairwise.of_cons hs
    simp only [List.orderedInsert]
    by_cases hxy : key y ≤ key x
    · rw [if_pos hxy]
      by_cases hx : key x = k <;> simp [List.filter_cons, hx]
    · rw [if_neg hxy]
      have hlt : key x < key y := lt_of_not_le hxy
      by_cases hx : key x = k
      · have hy : ¬ key y = k := hx ▸ ne_of_gt hlt
        rw [if_pos hx, List.filter_cons, if_neg (by simp [hy]),
          orderedInsert_filter_key key x k ys hys, if_pos hx,
          List.filter_cons, if_neg (by simp [hy])]
      · rw [if_neg hx, List.filter_cons, List.filter_cons,
          orderedInsert_filter_key key x k ys hys, if_neg hx]
  termination_by s => s.length

theorem sortByDesc_filter_key {α : Type} (key : α → ℚ) (k : ℚ) :
    ∀ l : List α,
      (sortByDesc key l).filter (fun y => decide (key y = k)) =
        l.filter (fun y => decide (key y = k))
  | [] => rfl
  | x :: l => by
    have hu : sortByDesc key (x :: l) =
        List.orderedInsert (fun a b => key b ≤ key a) x (sortByDesc key l) := rfl
    rw [hu, orderedInsert_filter_key key x k (sortByDesc key l) (sortByDesc_sorted key l),
      sortByDesc_filter_key key k l, List.filter_cons]
    by_cases hx : key x = k <;> simp [hx]

/-! ### Maximum of a list, Python style

`max(xs, default=0)` returns the greatest element of `xs`, or the default `0`
when `xs` is empty.  `list_max?` returns `none` on the empty list so that the
default can be supplied at the call site with `Option.getD`. -/

/-- The maximum element of a list, `none` if the list is empty. -/
def list_max? {α : Type} [LinearOrder α] : List α → Option α
  | [] => none
  | x :: xs => some (xs.foldl max x)

theorem foldl_max_mem {α : Type} [LinearOrder α] :
    ∀ (xs : List α) (x : α), xs.foldl max x ∈ x :: xs
  | [], x => by simp
  | z :: zs, x => by
    simp only [List.foldl]
    have h := foldl_max_mem zs (max x z)
    rcases List.mem_cons.mp h with h1 | h1
    · rcases max_choice x z with hc | hc
      · rw [h1, hc]; exact List.mem_cons_self _ _
      · rw [h1, hc]; exact List.mem_cons.mpr (Or.inr (List.mem_cons_self _ _))
    · exact List.mem_cons.mpr (Or.inr (List.mem_cons.mpr (Or.inr h1)))

theorem le_foldl_max {α : Type} [LinearOrder α] :
    ∀ (xs : List α) (x : α) (y : α), y ∈ x :: xs → y ≤ xs.foldl max x
  | [], x, y, hy => by
    rw [List.mem_singleton] at hy
    simp [hy]
  | z :: zs, x, y, hy => by
    simp only [List.foldl]
    have hbase : max x z ≤ List.foldl max (max x z) zs :=
      le_foldl_max zs (max x z) (max x z) (List.mem_cons_self _ _)
    rcases List.mem_cons.mp hy with rfl | h1
    · exact le_trans (le_max_left y z) hbase
    · rcases List.mem_cons.mp h1 with rfl | h2
      · exact le_trans (le_max_right x y) hbase
      · exact le_foldl_max zs (max x z) y (List.mem_cons.mpr (Or.inr h2))

theorem list_max?_mem {α : Type} [LinearOrder α] {l : List α} {v : α}
    (h : list_max? l = some v) : v ∈ l := by
  cases l with
  | nil => simp [list_max?] at h
  | cons x xs =>
    simp only [list_max?, Option.some.injEq] at h
    exact h ▸ foldl_max_mem xs x

theorem list_max?_le {α : Type} [LinearOrder α] {l : List α} {v : α}
    (h : list_max? l = some v) : ∀ y ∈ l, y ≤ v := by
  cases l with
  | nil => simp
  | cons x xs =>
    simp only [list_max?, Option.some.injEq] at h
    intro y hy
    exact h ▸ le_foldl_max xs x y hy

theorem list_max?_perm {α : Type} [LinearOrder α] {l₁ l₂ : List α}
    (h : List.Perm l₁ l₂) : list_max? l₁ = list_max? l₂ := by
  rcases l₁ with _ | ⟨x, xs⟩
  · rw [← h.nil_eq]
  · rcases l₂ with _ | ⟨y, ys⟩
    · exact absurd h.eq_nil (by simp)
    · have h1 : list_max? (x :: xs) = some (xs.foldl max x) := rfl
      have h2 : list_max? (y :: ys) = some (ys.foldl max y) := rfl
      rw [h1, h2]
      exact congrArg some (le_antisymm
        (list_max?_le h2 _ (h.mem_iff.mp (list_max?_mem h1)))
        (list_max?_le h1 _ (h.mem_iff.mpr (list_max?_mem h2))))

/-! ### Data model

A row of the `u.item` movies table as selected in both
`hybrid_recommend.load_movies` and `ContentBasedRecommender._load_movies`
(columns `movie_id, title, release_date, genres`).  `genres` is the raw
pipe-separated string of the data file; an empty `releaseDate` models a
missing/falsy `release_date` value. -/
structure Movie where
  movie_id : ℕ
  title : String
  releaseDate : String
  genres : String
  deriving Repr, DecidableEq

/-- An entry of the list returned by
`ContentBasedRecommender.get_similar_movies`: the dictionary built by
`_get_movie_details` with the key `similarity_score` added. -/
structure SimMovie where
  movie_id : ℕ
  title : String
  releaseDate : String
  genres : String
  similarity_score : ℚ
  deriving Repr, DecidableEq

/-- `ContentBasedRecommender.get_movie_by_id`: first row of the movies table
whose `movie_id` matches, `none` if there is no such row. -/
def get_movie_by_id (movies : List Movie) (movie_id : ℕ) : Option Movie :=
  movies.find? (fun mv => mv.movie_id == movie_id)

/-- `ContentBasedRecommender.get_similar_movies`.  `cosSim` is the
`cosine_sim` matrix (indexed by positions in the movies table), `none` when
it was never computed.  The code enumerates the similarity row of the first
positional index whose `movie_id` matches, sorts the `(position, score)`
pairs by score descending (Python `sorted`, stable), drops the first entry
("exclude the movie itself") and keeps the next `top_n`, then builds the
detail dictionaries. -/
def get_similar_movies (movies : List Movie) (cosSim : Option (ℕ → ℕ → ℚ))
    (movie_id : ℕ) (top_n : ℕ) : List SimMovie :=
  match cosSim with
  | none => []
  | some sim =>
    match movies.findIdx? (fun mv => mv.movie_id == movie_id) with
    | none => []
    | some idx =>
      let simScores := (List.range movies.length).map (fun i => (i, sim idx i))
      let sorted := sortByDesc (fun p => p.2) simScores
      let top := (sorted.drop 1).take top_n
      top.filterMap (fun p =>
        (movies[p.1]?).map (fun mv =>
          ⟨mv.movie_id, mv.title, mv.releaseDate, mv.genres, p.2⟩))

/-! ### HybridRecommender stages (`backend/hybrid_recommend.py`)

The recommender's state after `initialize_system` is passed as parameters:
`movies` (the `u.item` table, shared by the hybrid recommender and its
content recommender), `cosSim` (the content similarity matrix), `svd` (the
loaded SVD model: `none` when the model file is absent or fails to load,
otherwise the prediction function; a per-movie result of `none` models
`predict` raising an exception for that movie), and `ratings_count` (the
number of rows of the ratings table for each user). -/

/-- The scoring loop of `get_cf_recommendations`: predict every catalog
movie in order, collecting `(movie_id, prediction.est)` pairs; a raised
exception for any movie (`none`) aborts the whole loop. -/
def score_all (predict : ℕ → ℕ → Option ℚ) (user_id : ℕ) :
    List Movie → Option (List (ℕ × ℚ))
  | [] => some []
  | mv :: rest =>
    match predict user_id mv.movie_id with
    | none => none
    | some s => (score_all predict user_id rest).map (fun l => (mv.movie_id, s) :: l)

/-- `HybridRecommender.get_cf_recommendations`.  The whole scoring loop runs
inside one `try`: if the model is unavailable the stage returns `[]`, and an
exception for any single movie also aborts the loop and returns `[]`.
Otherwise all scored pairs are sorted by score descending and the top `2 n`
are returned. -/
def get_cf_recommendations (movies : List Movie) (svd : Option (ℕ → ℕ → Option ℚ))
    (user_id : ℕ) (n : ℕ) : List (ℕ × ℚ) :=
  match svd with
  | none => []
  | some predict =>
    match score_all predict user_id movies with
    | none => []
    | some cf => (sortByDesc (fun p => p.2) cf).take (n * 2)

/-- Python's `s.split("|")` on the character list of `s`: splitting on every
`'|'`, keeping empty segments (`"".split("|") == [""]`). -/
def split_pipe : List Char → List (List Char)
  | [] => [[]]
  | c :: rest =>
    match split_pipe rest with
    | [] => [[c]]
    | g :: gs => if c = '|' then [] :: g :: gs else (c :: g) :: gs

/-- Python's `s.strip()`: remove whitespace from both ends. -/
def strip_chars (cs : List Char) : List Char :=
  ((cs.dropWhile Char.isWhitespace).reverse.dropWhile Char.isWhitespace).reverse

/-- Python's `int(s)`: optional surrounding whitespace, optional sign, then
at least one digit; anything else raises (`none`). -/
def digits_value : List Char → Option ℕ
  | [] => none
  | cs =>
    if cs.all Char.isDigit then
      some (cs.foldl (fun a c => a * 10 + (c.toNat - 48)) 0)
    else none

/-- Parse a character list as a Python `int(...)` literal. -/
def parse_int? (cs : List Char) : Option ℤ :=
  match strip_chars cs with
  | '-' :: rest => (digits_value rest).map (fun n => -(n : ℤ))
  | '+' :: rest => (digits_value rest).map (fun n => (n : ℤ))
  | other => (digits_value other).map (fun n => (n : ℤ))

/-- The boost factor of `HybridRecommender.apply_temporal_boost` for one
movie: `1.1` when the movie is found, has a non-empty (truthy) release date
whose last four characters (`release_date[-4:]`) parse as a year `y` with
`current_year - y ≤ 5`; otherwise `1.0` (including on a parse error). -/
def boost_factor (current_year : ℤ) (mv? : Option Movie) : ℚ :=
  match mv? with
  | none => 1
  | some mv =>
    if mv.releaseDate = "" then 1
    else
      match parse_int? ((mv.releaseDate.takeRight 4).data) with
      | none => 1
      | some y => if current_year - y ≤ 5 then 11 / 10 else 1

/-- `HybridRecommender.apply_temporal_boost`: each `(movie_id, score)` pair
becomes `(movie_id, score * boost)`. -/
def apply_temporal_boost (movies : List Movie) (current_year : ℤ)
    (recommendations : List (ℕ × ℚ)) : List (ℕ × ℚ) :=
  recommendations.map (fun p =>
    (p.1, p.2 * boost_factor current_year (get_movie_by_id movies p.1)))

/-- The loop body of `HybridRecommender.combine_with_content`, before the
final sort: for each candidate, `content_score` is the similarity score of
the single best match returned by `get_similar_movies(movie_id, top_n=1)`
(`0` when that list is empty), and the combined score is
`0.6 * boosted_score + 0.4 * content_score`. -/
def combine_go (movies : List Movie) (cosSim : Option (ℕ → ℕ → ℚ)) :
    List (ℕ × ℚ) → List (ℕ × ℚ)
  | [] => []
  | p :: rest =>
    let contentScore :=
      match get_similar_movies movies cosSim p.1 1 with
      | [] => 0
      | e :: _ => e.similarity_score
    (p.1, 6 / 10 * p.2 + 4 / 10 * contentScore) :: combine_go movies cosSim rest

/-- `HybridRecommender.combine_with_content`: compute each combined score,
then sort the list by combined score descending (`combined.sort(...,
reverse=True)`). -/
def combine_with_content (movies : List Movie) (cosSim : Option (ℕ → ℕ → ℚ))
    (recommendations : List (ℕ × ℚ)) : List (ℕ × ℚ) :=
  sortByDesc (fun p => p.2) (combine_go movies cosSim recommendations)

/-- The genre list of `HybridRecommender.diversity_rerank`:
`[g.strip() for g in genres.split("|") if g.strip()]` (a stripped empty
string is falsy and is dropped). -/
def genre_list (genres : String) : List String :=
  (((split_pipe genres.data).map strip_chars).filter
    (fun cs => !cs.isEmpty)).map (fun cs => String.mk cs)

/-- The inner genre loop of `diversity_rerank`: multiply the penalty by
`1 / (1 + count[g])` for each genre `g` in order, incrementing `count[g]`
as it goes (so a repeated genre within one movie is counted twice). -/
def apply_genres (genre_count : String → ℕ) :
    List String → ℚ × (String → ℕ)
  | [] => (1, genre_count)
  | g :: gs =>
    let c := genre_count g
    let next := apply_genres (fun g2 => if g2 = g then c + 1 else genre_count g2) gs
    ((1 / (1 + (c : ℚ))) * next.1, next.2)

/-- The candidate loop of `HybridRecommender.diversity_rerank`, processing
candidates in the order supplied: candidates whose movie is not found are
skipped (`continue`), the others get `(movie_id, title, score * penalty)`. -/
def diversity_go (movies : List Movie) (genre_count : String → ℕ) :
    List (ℕ × ℚ) → List (ℕ × String × ℚ)
  | [] => []
  | p :: rest =>
    match get_movie_by_id movies p.1 with
    | none => diversity_go movies genre_count rest
    | some mv =>
      let next := apply_genres genre_count (genre_list mv.genres)
      (p.1, mv.title, p.2 * next.1) :: diversity_go movies next.2 rest

/-- `HybridRecommender.diversity_rerank`: run the candidate loop with an
empty genre-count dictionary, then sort the result by adjusted score
descending (`final_recs.sort(key=lambda x: x[2], reverse=True)`). -/
def diversity_rerank (movies : List Movie) (recommendations : List (ℕ × ℚ)) :
    List (ℕ × String × ℚ) :=
  sortByDesc (fun t => t.2.2) (diversity_go movies (fun _ => 0) recommendations)

/-! ### RLAgent (`backend/rl_agent.py`)

The persistent Q-value store (`self.q_values`, a dict keyed by
`(user_id, movie_id)` mirrored to SQLite) is modelled as a function to
`Option ℚ`: `none` means the key is absent (no feedback ever recorded). -/

/-- The in-memory Q-value table of `RLAgent`. -/
abbrev QStore : Type := ℕ × ℕ → Option ℚ

/-- `RLAgent.get_q_value`: current Q-value, defaulting to `0.0` when the
`(user, movie)` pair is absent. -/
def get_q_value (st : QStore) (user_id movie_id : ℕ) : ℚ :=
  (st (user_id, movie_id)).getD 0

/-- Write one Q-value (the dict assignment in `update_q_value`, together
with its mirrored SQLite upsert). -/
def set_q_value (st : QStore) (user_id movie_id : ℕ) (v : ℚ) : QStore :=
  fun k => if k = (user_id, movie_id) then some v else st k

/-- The TD(0) update formula of `RLAgent.update_q_value`:
`q + lr * (reward + discount * next_max - q)`. -/
def td_update (lr discount q reward next_max : ℚ) : ℚ :=
  q + lr * (reward + discount * next_max - q)

/-- `RLAgent.update_q_value`: read the current Q-value (default `0.0`),
apply the TD update, store the result, and return it. -/
def update_q_value (lr discount : ℚ) (st : QStore) (user_id movie_id : ℕ)
    (reward : ℚ) (next_max : ℚ) : ℚ × QStore :=
  let new_q := td_update lr discount (get_q_value st user_id movie_id) reward next_max
  (new_q, set_q_value st user_id movie_id new_q)

/-- `next_max` of `RLAgent.adjust_recommendations`:
`max([get_q_value(user, m) for m, _ in recommendations], default=0)`,
computed once from the pre-update store. -/
def batch_next_max (st : QStore) (user_id : ℕ) (recs : List (ℕ × ℚ)) : ℚ :=
  (list_max? (recs.map (fun p => get_q_value st user_id p.1))).getD 0

/-- The candidate loop of `RLAgent.adjust_recommendations`: for each
`(movie_id, score)` in order, look up the feedback reward (default `0`),
update the Q-value with the shared `next_max`, and emit
`(movie_id, 0.7 * score + 0.3 * new_q)`. -/
def adjust_go (lr discount : ℚ) (user_id : ℕ) (feedback : ℕ → Option ℚ)
    (next_max : ℚ) (st : QStore) :
    List (ℕ × ℚ) → List (ℕ × ℚ) × QStore
  | [] => ([], st)
  | p :: rest =>
    let upd := update_q_value lr discount st user_id p.1 ((feedback p.1).getD 0) next_max
    let next := adjust_go lr discount user_id feedback next_max upd.2 rest
    ((p.1, 7 / 10 * p.2 + 3 / 10 * upd.1) :: next.1, next.2)

/-- `RLAgent.adjust_recommendations`: compute `next_max` once, run the
update loop, and sort the updated pairs by adjusted score descending.
Returns the sorted list together with the post-batch store. -/
def adjust_recommendations (lr discount : ℚ) (st : QStore) (user_id : ℕ)
    (recs : List (ℕ × ℚ)) (feedback : ℕ → Option ℚ) :
    List (ℕ × ℚ) × QStore :=
  let res := adjust_go lr discount user_id feedback (batch_next_max st user_id recs) st recs
  (sortByDesc (fun p => p.2) res.1, res.2)

/-! ### Orchestration (`hybrid_recommend.py`, continued) -/

/-- `HybridRecommender.apply_rl_feedback`.  `rl = some (lr, discount, st)`
models a successfully constructed `RLAgent` (learning parameters and loaded
Q-store); `rl = none` models the `except` branch (agent construction or
adjustment failed), which returns the input list unchanged.  On success the
code extracts `(movie_id, score)` pairs, builds the all-zero feedback dict
over those ids, calls `adjust_recommendations`, and reattaches titles by a
fresh catalog lookup (`"Unknown"` when the movie is not found). -/
def apply_rl_feedback (movies : List Movie) (rl : Option (ℚ × ℚ × QStore))
    (user_id : ℕ) (recommendations : List (ℕ × String × ℚ)) :
    List (ℕ × String × ℚ) × Option QStore :=
  match rl with
  | none => (recommendations, none)
  | some (lr, discount, st) =>
    let recs := recommendations.map (fun t => (t.1, t.2.2))
    let feedback : ℕ → Option ℚ :=
      fun m => if (recs.map Prod.fst).contains m then some 0 else none
    let res := adjust_recommendations lr discount st user_id recs feedback
    (res.1.map (fun p =>
      (p.1,
       (match get_movie_by_id movies p.1 with
        | some mv => mv.title
        | none => "Unknown"),
       p.2)),
     some res.2)

/-- The cold-start branch of `HybridRecommender.hybrid_recommendation`:
`get_similar_movies` seeded with the first movie of the catalog, re-shaped
to `(movie_id, title, similarity_score)` triples.  `none` models the
`IndexError` of `self.movies.iloc[0]` on an empty catalog. -/
def trending_fallback (movies : List Movie) (cosSim : Option (ℕ → ℕ → ℚ))
    (top_n : ℕ) : Option (List (ℕ × String × ℚ)) :=
  (movies.head?).map (fun m0 =>
    (get_similar_movies movies cosSim m0.movie_id top_n).map
      (fun e => (e.movie_id, e.title, e.similarity_score)))

/-- `HybridRecommender.hybrid_recommendation`: if the user has fewer than 5
ratings, return the trending fallback; otherwise run CF candidate
generation, temporal boosting, content fusion, diversity re-ranking and RL
feedback, and truncate to `top_n`. -/
def hybrid_recommendation (movies : List Movie) (cosSim : Option (ℕ → ℕ → ℚ))
    (svd : Option (ℕ → ℕ → Option ℚ)) (ratings_count : ℕ → ℕ)
    (current_year : ℤ) (rl : Option (ℚ × ℚ × QStore))
    (user_id : ℕ) (top_n : ℕ) : Option (List (ℕ × String × ℚ)) :=
  if ratings_count user_id < 5 then
    trending_fallback movies cosSim top_n
  else
    some ((apply_rl_feedback movies rl user_id
      (diversity_rerank movies
        (combine_with_content movies cosSim
          (apply_temporal_boost movies current_year
            (get_cf_recommendations movies svd user_id top_n))))).1.take top_n)

/-! ### Fairness re-rankers (`fairness_re_ranker.py`, `fairness_checks.py`)

The ratings table is modelled by the list of its `movieId` column values;
the popularity of a movie is its number of ratings rows.  A Python dict in
insertion order is modelled by `first_dedup`, which keeps the first
occurrence of each key. -/

/-- The keys of a dict built by inserting elements of `l` in order: each
value keeps its first occurrence. -/
def first_dedup {α : Type} [DecidableEq α] : List α → List α
  | [] => []
  | x :: xs => x :: (first_dedup xs).filter (fun y => decide (y ≠ x))

/-- `ratings.groupby("movieId").size()` as an association list: one entry
per distinct movie id with its rating count. -/
def movie_popularity (ratings : List ℕ) : List (ℕ × ℕ) :=
  (first_dedup ratings).map (fun m => (m, ratings.count m))

/-- `movie_popularity.max()`, defaulting to `0` (the code only uses it when
the table is non-empty). -/
def max_popularity (ratings : List ℕ) : ℕ :=
  (list_max? ((movie_popularity ratings).map (fun p => p.2))).getD 0

/-- The adjusted score of `re_rank_fair`:
`alpha * original_score - beta * (popularity / max_popularity)`, with
score defaulting to `0` for movies absent from `predicted_scores` and
popularity `0` for movies with no ratings. -/
def fair_adjusted_score (ratings : List ℕ) (predicted_scores : ℕ → Option ℚ)
    (alpha beta : ℚ) (movie : ℕ) : ℚ :=
  alpha * (predicted_scores movie).getD 0 -
    beta * ((ratings.count movie : ℚ) / (max_popularity ratings : ℚ))

/-- `fairness_re_ranker.re_rank_fair`.  When the ratings data is empty (the
`ratings.empty` and `movie_popularity.empty` guards coincide: the groupby of
an empty frame is empty) the input list is returned verbatim.  Otherwise the
adjusted scores are collected in a dict keyed by movie id (first occurrence
order, duplicates collapsed) and `sorted(..., reverse=True)` returns the
keys by descending adjusted score. -/
def re_rank_fair (ratings : List ℕ) (recommendations : List ℕ)
    (predicted_scores : ℕ → Option ℚ) (alpha beta : ℚ) : List ℕ :=
  if ratings.isEmpty then recommendations
  else
    sortByDesc (fair_adjusted_score ratings predicted_scores alpha beta)
      (first_dedup recommendations)

/-- `fairness_checks.re_rank_recommendations`: identical to `re_rank_fair`
with `alpha = 1` and `beta = lambda_factor` (its only guard is
`movie_popularity.empty`, i.e. an empty ratings table). -/
def re_rank_recommendations (ratings : List ℕ) (recommendations : List ℕ)
    (predicted_scores : ℕ → Option ℚ) (lambda_factor : ℚ) : List ℕ :=
  if ratings.isEmpty then recommendations
  else
    sortByDesc (fun movie =>
        (predicted_scores movie).getD 0 -
          lambda_factor * ((ratings.count movie : ℚ) / (max_popularity ratings : ℚ)))
      (first_dedup recommendations)

/-! ### Helper lemmas about the stages -/

theorem get_similar_movies_length_le (movies : List Movie)
    (cosSim : Option (ℕ → ℕ → ℚ)) (movie_id top_n : ℕ) :
    (get_similar_movies movies cosSim movie_id top_n).length ≤ top_n := by
  unfold get_similar_movies
  cases cosSim with
  | none => simp
  | some sim =>
    cases movies.findIdx? (fun mv => mv.movie_id == movie_id) with
    | none => simp
    | some idx =>
      simp only
      exact le_trans (List.length_filterMap_le _ _) (List.length_take_le _ _)

theorem get_similar_movies_sorted (movies : List Movie)
    (cosSim : Option (ℕ → ℕ → ℚ)) (movie_id top_n : ℕ) :
    SortedDescBy (fun e => e.similarity_score)
      (get_similar_movies movies cosSim movie_id top_n) := by
  unfold get_similar_movies
  cases cosSim with
  | none => exact List.Pairwise.nil
  | some sim =>
    cases movies.findIdx? (fun mv => mv.movie_id == movie_id) with
    | none => exact List.Pairwise.nil
    | some idx =>
      simp only
      apply List.pairwise_filterMap.mpr
      have hsorted : SortedDescBy (fun p : ℕ × ℚ => p.2)
          (sortByDesc (fun p : ℕ × ℚ => p.2)
            ((List.range movies.length).map (fun i => (i, sim idx i)))) :=
        sortByDesc_sorted _ _
      have hsub : List.Sublist
          (((sortByDesc (fun p : ℕ × ℚ => p.2)
              ((List.range movies.length).map (fun i => (i, sim idx i)))).drop 1).take top_n)
          (sortByDesc (fun p : ℕ × ℚ => p.2)
            ((List.range movies.length).map (fun i => (i, sim idx i)))) :=
        List.Sublist.trans (List.take_sublist _ _) (List.drop_sublist _ _)
      refine List.Pairwise.imp ?_ (List.Pairwise.sublist hsub hsorted)
      intro p q hpq b hb c hc
      rcases Option.map_eq_some'.mp hb with ⟨mvb, _, hb2⟩
      rcases Option.map_eq_some'.mp hc with ⟨mvc, _, hc2⟩
      rw [← hb2, ← hc2]
      exact hpq

/-- The fusion loop computes, in order, the fixed-weight blend of each
boosted score with the best-match content score. -/
theorem combine_go_eq_map (movies : List Movie) (cosSim : Option (ℕ → ℕ → ℚ)) :
    ∀ recs : List (ℕ × ℚ),
      combine_go movies cosSim recs =
        recs.map (fun p => (p.1,
          6 / 10 * p.2 + 4 / 10 *
            (((get_similar_movies movies cosSim p.1 1).head?.map
              (fun e => e.similarity_score)).getD 0)))
  | [] => rfl
  | p :: rest => by
    cases h : get_similar_movies movies cosSim p.1 1 with
    | nil =>
      simp only [combine_go, h, List.map, combine_go_eq_map movies cosSim rest]
      simp
    | cons e t =>
      simp only [combine_go, h, List.map, combine_go_eq_map movies cosSim rest]
      simp

theorem combine_go_fst (movies : List Movie) (cosSim : Option (ℕ → ℕ → ℚ))
    (recs : List (ℕ × ℚ)) :
    (combine_go movies cosSim recs).map Prod.fst = recs.map Prod.fst := by
  rw [combine_go_eq_map, List.map_map]
  rfl

/-- The diversity loop keeps candidates in the order supplied, only skipping
those whose movie is missing from the catalog. -/
theorem diversity_go_fst_sublist (movies : List Movie) :
    ∀ (genre_count : String → ℕ) (recs : List (ℕ × ℚ)),
      List.Sublist ((diversity_go movies genre_count recs).map (fun t => t.1))
        (recs.map Prod.fst)
  | _, [] => List.Sublist.refl _
  | gc, p :: rest => by
    simp only [diversity_go]
    cases get_movie_by_id movies p.1 with
    | none =>
      simp only [List.map]
      exact List.Sublist.cons _ (diversity_go_fst_sublist movies gc rest)
    | some mv =>
      simp only [List.map]
      exact List.Sublist.cons₂ _ (diversity_go_fst_sublist movies _ rest)

theorem score_all_eq_none_iff (predict : ℕ → ℕ → Option ℚ) (user_id : ℕ) :
    ∀ movies : List Movie,
      score_all predict user_id movies = none ↔
        ∃ mv ∈ movies, predict user_id mv.movie_id = none
  | [] => by simp [score_all]
  | mv :: rest => by
    simp only [score_all]
    cases h : predict user_id mv.movie_id with
    | none => simp [h]
    | some s =>
      cases h2 : score_all predict user_id rest with
      | none =>
        rcases (score_all_eq_none_iff predict user_id rest).mp h2 with ⟨mv2, hm, hp⟩
        exact iff_of_true rfl ⟨mv2, List.mem_cons.mpr (Or.inr hm), hp⟩
      | some l =>
        refine iff_of_false (by simp) ?_
        intro hc
        rcases hc with ⟨mv2, hm, hp⟩
        rcases List.mem_cons.mp hm with rfl | hm2
        · simp [h] at hp
        · have hnone : score_all predict user_id rest = none :=
            (score_all_eq_none_iff predict user_id rest).mpr ⟨mv2, hm2, hp⟩
          simp [hnone] at h2

/-- Candidate generation as §4.1 of the specification describes it, for
comparison with the implementation: predictor errors for individual movies
are skipped, the successfully scored movies are sorted by score descending
and the top `2 n` returned. -/
def get_cf_recommendations_claim (movies : List Movie)
    (svd : Option (ℕ → ℕ → Option ℚ)) (user_id : ℕ) (n : ℕ) : List (ℕ × ℚ) :=
  match svd with
  | none => []
  | some predict =>
    (sortByDesc (fun p => p.2)
      (movies.filterMap (fun mv =>
        (predict user_id mv.movie_id).map (fun s => (mv.movie_id, s))))).take (n * 2)

/-! ### Helper lemmas about `first_dedup` -/

theorem mem_first_dedup {α : Type} [DecidableEq α] :
    ∀ (l : List α) (y : α), y ∈ first_dedup l ↔ y ∈ l
  | [], y => Iff.rfl
  | x :: xs, y => by
    simp only [first_dedup, List.mem_cons, List.mem_filter,
      mem_first_dedup xs y, decide_eq_true_eq]
    by_cases hy : y = x
    · simp [hy]
    · simp [hy]

theorem first_dedup_nodup {α : Type} [DecidableEq α] :
    ∀ l : List α, (first_dedup l).Nodup
  | [] => List.nodup_nil
  | x :: xs => by
    simp only [first_dedup]
    refine List.Nodup.cons ?_ (List.Nodup.filter _ (first_dedup_nodup xs))
    intro hx
    have := (List.mem_filter.mp hx).2
    simp at this

/-! ### Helper lemmas about the RL batch update -/

theorem adjust_go_out_congr (lr discount : ℚ) (user_id : ℕ)
    (feedback : ℕ → Option ℚ) (next_max : ℚ) :
    ∀ (l : List (ℕ × ℚ)) (st₁ st₂ : QStore),
      (∀ m ∈ l.map Prod.fst, st₁ (user_id, m) = st₂ (user_id, m)) →
      (adjust_go lr discount user_id feedback next_max st₁ l).1 =
        (adjust_go lr discount user_id feedback next_max st₂ l).1
  | [], _, _, _ => rfl
  | p :: rest, st₁, st₂, h => by
    have hhead : st₁ (user_id, p.1) = st₂ (user_id, p.1) :=
      h p.1 (by simp)
    have hq : get_q_value st₁ user_id p.1 = get_q_value st₂ user_id p.1 := by
      unfold get_q_value; rw [hhead]
    simp only [adjust_go, update_q_value]
    rw [hq]
    have htail : ∀ m ∈ rest.map Prod.fst,
        set_q_value st₁ user_id p.1
            (td_update lr discount (get_q_value st₂ user_id p.1)
              ((feedback p.1).getD 0) next_max) (user_id, m) =
          set_q_value st₂ user_id p.1
            (td_update lr discount (get_q_value st₂ user_id p.1)
              ((feedback p.1).getD 0) next_max) (user_id, m) := by
      intro m hm
      unfold set_q_value
      by_cases hmp : ((user_id, m) : ℕ × ℕ) = (user_id, p.1)
      · simp [hmp]
      · simp only [if_neg hmp]
        exact h m (List.mem_cons.mpr (Or.inr hm))
    rw [adjust_go_out_congr lr discount user_id feedback next_max rest _ _ htail]

theorem adjust_go_out_eq_map (lr discount : ℚ) (user_id : ℕ)
    (feedback : ℕ → Option ℚ) (next_max : ℚ) :
    ∀ (l : List (ℕ × ℚ)) (st : QStore), (l.map Prod.fst).Nodup →
      (adjust_go lr discount user_id feedback next_max st l).1 =
        l.map (fun p => (p.1,
          7 / 10 * p.2 + 3 / 10 *
            td_update lr discount (get_q_value st user_id p.1)
              ((feedback p.1).getD 0) next_max))
  | [], _, _ => rfl
  | p :: rest, st, hnd => by
    have hnd2 : (p.1 :: rest.map Prod.fst).Nodup := by
      simpa only [List.map_cons] using hnd
    have hnotmem : p.1 ∉ rest.map Prod.fst := (List.nodup_cons.mp hnd2).1
    have hndrest : (rest.map Prod.fst).Nodup := (List.nodup_cons.mp hnd2).2
    simp only [adjust_go, update_q_value, List.map]
    congr 1
    · have hagree : ∀ m ∈ rest.map Prod.fst,
          set_q_value st user_id p.1
              (td_update lr discount (get_q_value st user_id p.1)
                ((feedback p.1).getD 0) next_max) (user_id, m) =
            st (user_id, m) := by
        intro m hm
        unfold set_q_value
        have hne : ((user_id, m) : ℕ × ℕ) ≠ (user_id, p.1) := by
          intro he
          exact hnotmem (by
            have : m = p.1 := congrArg Prod.snd he
            exact this ▸ hm)
        simp [hne]
      rw [adjust_go_out_congr lr discount user_id feedback next_max rest _ _ hagree]
      exact adjust_go_out_eq_map lr discount user_id feedback next_max rest st hndrest

theorem adjust_go_store_untouched (lr discount : ℚ) (user_id : ℕ)
    (feedback : ℕ → Option ℚ) (next_max : ℚ) :
    ∀ (l : List (ℕ × ℚ)) (st : QStore) (k : ℕ × ℕ),
      (∀ m ∈ l.map Prod.fst, k ≠ (user_id, m)) →
      (adjust_go lr discount user_id feedback next_max st l).2 k = st k
  | [], _, _, _ => rfl
  | p :: rest, st, k, h => by
    simp only [adjust_go, update_q_value]
    rw [adjust_go_store_untouched lr discount user_id feedback next_max rest _ k
      (fun m hm => h m (List.mem_cons.mpr (Or.inr hm)))]
    unfold set_q_value
    rw [if_neg (h p.1 (by simp))]

theorem adjust_go_store_mem (lr discount : ℚ) (user_id : ℕ)
    (feedback : ℕ → Option ℚ) (next_max : ℚ) :
    ∀ (l : List (ℕ × ℚ)) (st : QStore), (l.map Prod.fst).Nodup →
      ∀ p ∈ l,
        (adjust_go lr discount user_id feedback next_max st l).2 (user_id, p.1) =
          some (td_update lr discount (get_q_value st user_id p.1)
            ((feedback p.1).getD 0) next_max)
  | [], _, _, p, hp => absurd hp (by simp)
  | q :: rest, st, hnd, p, hp => by
    have hnd2 : (q.1 :: rest.map Prod.fst).Nodup := by
      simpa only [List.map_cons] using hnd
    have hnotmem : q.1 ∉ rest.map Prod.fst := (List.nodup_cons.mp hnd2).1
    have hndrest : (rest.map Prod.fst).Nodup := (List.nodup_cons.mp hnd2).2
    rcases List.mem_cons.mp hp with rfl | hp2
    · simp only [adjust_go, update_q_value]
      rw [adjust_go_store_untouched lr discount user_id feedback next_max rest _ _
        (fun m hm => by
          intro he
          exact hnotmem (by
            have : m = p.1 := (congrArg Prod.snd he).symm
            exact this ▸ hm))]
      unfold set_q_value
      rw [if_pos rfl]
    · simp only [adjust_go, update_q_value]
      have hagree : get_q_value (set_q_value st user_id q.1
          (td_update lr discount (get_q_value st user_id q.1)
            ((feedback q.1).getD 0) next_max)) user_id p.1 =
          get_q_value st user_id p.1 := by
        unfold get_q_value set_q_value
        have hne : ((user_id, p.1) : ℕ × ℕ) ≠ (user_id, q.1) := by
          intro he
          exact hnotmem (by
            have : q.1 = p.1 := (congrArg Prod.snd he).symm
            exact this ▸ (List.mem_map.mpr ⟨p, hp2, rfl⟩))
        rw [if_neg hne]
      rw [adjust_go_store_mem lr discount user_id feedback next_max rest _ hndrest p hp2,
        hagree]

theorem diversity_rerank_sorted (movies : List Movie) (recs : List (ℕ × ℚ)) :
    SortedDescBy (fun t => t.2.2) (diversity_rerank movies recs) :=
  sortByDesc_sorted _ _

theorem apply_rl_feedback_sorted (movies : List Movie) (rl : Option (ℚ × ℚ × QStore))
    (user_id : ℕ) (recs : List (ℕ × String × ℚ))
    (hrecs : SortedDescBy (fun t => t.2.2) recs) :
    SortedDescBy (fun t => t.2.2) (apply_rl_feedback movies rl user_id recs).1 := by
  rcases rl with _ | ⟨lr, discount, st⟩
  · exact hrecs
  · simp only [apply_rl_feedback]
    exact List.pairwise_map.mpr (sortByDesc_sorted _ _)

/-! ### The claims -/

/-- C1: every list returned by `hybrid_recommendation` has length at most
`top_n` and is sorted descending by the score in its third component (the
RL-adjusted final score in the full pipeline, the trending similarity score
in the cold-start branch). -/
theorem hybrid_topn_and_sorted (movies : List Movie) (cosSim : Option (ℕ → ℕ → ℚ))
    (svd : Option (ℕ → ℕ → Option ℚ)) (ratings_count : ℕ → ℕ) (current_year : ℤ)
    (rl : Option (ℚ × ℚ × QStore)) (user_id top_n : ℕ)
    (out : List (ℕ × String × ℚ))
    (h : hybrid_recommendation movies cosSim svd ratings_count current_year rl
      user_id top_n = some out) :
    out.length ≤ top_n ∧ SortedDescBy (fun t => t.2.2) out := by
  unfold hybrid_recommendation at h
  by_cases hc : ratings_count user_id < 5
  · rw [if_pos hc] at h
    unfold trending_fallback at h
    cases hm : movies.head? with
    | none => rw [hm] at h; exact absurd h (by simp)
    | some m0 =>
      rw [hm, Option.map_some'] at h
      obtain rfl := Option.some.inj h
      constructor
      · rw [List.length_map]
        exact get_similar_movies_length_le movies cosSim m0.movie_id top_n
      · exact List.pairwise_map.mpr
          (get_similar_movies_sorted movies cosSim m0.movie_id top_n)
  · rw [if_neg hc] at h
    obtain rfl := Option.some.inj h
    constructor
    · exact List.length_take_le _ _
    · exact List.Pairwise.sublist (List.take_sublist _ _)
        (apply_rl_feedback_sorted movies rl user_id _
          (diversity_rerank_sorted movies _))

/-- C1 witness: a concrete cold-start request returning the empty list. -/
theorem hybrid_topn_and_sorted_witness :
    hybrid_recommendation [⟨1, "A", "", ""⟩] none none (fun _ => 0) 2026 none 1 10 =
      some ([] : List (ℕ × String × ℚ))
    ∧ ([] : List (ℕ × String × ℚ)).length ≤ 10
    ∧ SortedDescBy (fun t => t.2.2) ([] : List (ℕ × String × ℚ)) :=
  ⟨by with_unfolding_all decide,
   hybrid_topn_and_sorted [⟨1, "A", "", ""⟩] none none (fun _ => 0) 2026 none 1 10 []
     (by with_unfolding_all decide)⟩

/-- C2: a user with fewer than 5 historical ratings receives the trending
fallback — independently of the CF model and the RL agent, so no CF scoring,
diversity re-ranking or RL adjustment takes place — while a user with at
least 5 ratings receives the full 4.1–4.5 pipeline truncated to `top_n`. -/
theorem cold_start_boundary (movies : List Movie) (cosSim : Option (ℕ → ℕ → ℚ))
    (svd : Option (ℕ → ℕ → Option ℚ)) (ratings_count : ℕ → ℕ) (current_year : ℤ)
    (rl : Option (ℚ × ℚ × QStore)) (user_id top_n : ℕ) :
    (ratings_count user_id < 5 →
      hybrid_recommendation movies cosSim svd ratings_count current_year rl
          user_id top_n = trending_fallback movies cosSim top_n
      ∧ ∀ (svd2 : Option (ℕ → ℕ → Option ℚ)) (rl2 : Option (ℚ × ℚ × QStore)),
          hybrid_recommendation movies cosSim svd2 ratings_count current_year rl2
            user_id top_n = trending_fallback movies cosSim top_n)
    ∧ (5 ≤ ratings_count user_id →
      hybrid_recommendation movies cosSim svd ratings_count current_year rl
          user_id top_n =
        some ((apply_rl_feedback movies rl user_id
          (diversity_rerank movies
            (combine_with_content movies cosSim
              (apply_temporal_boost movies current_year
                (get_cf_recommendations movies svd user_id top_n))))).1.take top_n)) := by
  constructor
  · intro h
    constructor
    · unfold hybrid_recommendation
      rw [if_pos h]
    · intro svd2 rl2
      unfold hybrid_recommendation
      rw [if_pos h]
  · intro h
    unfold hybrid_recommendation
    rw [if_neg (not_lt.mpr h)]

/-- C2 witness: users with exactly 4 and exactly 5 ratings, on a concrete
one-movie catalog. -/
theorem cold_start_boundary_witness :
    ((4 : ℕ) < 5
      ∧ hybrid_recommendation [⟨1, "A", "", ""⟩] none none (fun _ => 4) 2026 none 1 3 =
          trending_fallback [⟨1, "A", "", ""⟩] none 3)
    ∧ ((5 : ℕ) ≤ 5
      ∧ hybrid_recommendation [⟨1, "A", "", ""⟩] none none (fun _ => 5) 2026 none 1 3 =
          some ((apply_rl_feedback [⟨1, "A", "", ""⟩] none 1
            (diversity_rerank [⟨1, "A", "", ""⟩]
              (combine_with_content [⟨1, "A", "", ""⟩] none
                (apply_temporal_boost [⟨1, "A", "", ""⟩] 2026
                  (get_cf_recommendations [⟨1, "A", "", ""⟩] none 1 3))))).1.take 3)) :=
  ⟨⟨by with_unfolding_all decide,
    ((cold_start_boundary [⟨1, "A", "", ""⟩] none none (fun _ => 4) 2026 none 1 3).1
      (by with_unfolding_all decide)).1⟩,
   ⟨by with_unfolding_all decide,
    (cold_start_boundary [⟨1, "A", "", ""⟩] none none (fun _ => 5) 2026 none 1 3).2
      (by with_unfolding_all decide)⟩⟩

/-- C3 counterexample: `diversity_rerank` does not break score ties by lower
movie id.  Two tied candidates supplied as `[2, 1]` come out as `[2, 1]`:
the final order violates "equal score implies smaller id first". -/
theorem diversity_tiebreak_counterexample :
    ¬ List.Pairwise (fun a b : ℕ × String × ℚ => a.2.2 ≠ b.2.2 ∨ a.1 < b.1)
      (diversity_rerank [⟨1, "A", "", ""⟩, ⟨2, "B", "", ""⟩]
        [((2 : ℕ), (5 : ℚ)), (1, 5)]) := by
  with_unfolding_all decide

/-- C3 (amended): `diversity_rerank` performs no initial sort — candidates
are processed in exactly the order supplied (skipping only candidates whose
movie is missing) — and the final output is the stable descending sort of
the processed list by `diversity_adjusted_score`, so tied candidates keep
their processing order instead of being ordered by movie id. -/
theorem diversity_rerank_order (movies : List Movie) (recs : List (ℕ × ℚ)) :
    diversity_rerank movies recs =
      sortByDesc (fun t => t.2.2) (diversity_go movies (fun _ => 0) recs)
    ∧ SortedDescBy (fun t => t.2.2) (diversity_rerank movies recs)
    ∧ (∀ k : ℚ,
        (diversity_rerank movies recs).filter (fun t => decide (t.2.2 = k)) =
          (diversity_go movies (fun _ => 0) recs).filter (fun t => decide (t.2.2 = k)))
    ∧ List.Sublist ((diversity_go movies (fun _ => 0) recs).map (fun t => t.1))
        (recs.map Prod.fst) :=
  ⟨rfl, diversity_rerank_sorted movies recs,
   fun k => sortByDesc_filter_key (fun t : ℕ × String × ℚ => t.2.2) k _,
   diversity_go_fst_sublist movies _ recs⟩

/-- C4 counterexample: the score-fusion stage does re-order.  With no
similarity index (content scores all `0`) the input `[(1, 0), (2, 10)]`
comes out with the ids in order `[2, 1]`, not the input order `[1, 2]`. -/
theorem combine_reorders_counterexample :
    ¬ ((combine_with_content [] none [((1 : ℕ), (0 : ℚ)), (2, 10)]).map Prod.fst =
      ([((1 : ℕ), (0 : ℚ)), (2, 10)].map Prod.fst)) := by
  with_unfolding_all decide

/-- C4 (amended): the fusion stage computes each candidate's combined score
in input order but then re-sorts the list by combined score descending
(stably — tied candidates keep input order); the multiset of movie ids is
preserved. -/
theorem combine_sorts_after_fusion (movies : List Movie)
    (cosSim : Option (ℕ → ℕ → ℚ)) (recs : List (ℕ × ℚ)) :
    combine_with_content movies cosSim recs =
      sortByDesc (fun p => p.2) (combine_go movies cosSim recs)
    ∧ SortedDescBy (fun p => p.2) (combine_with_content movies cosSim recs)
    ∧ List.Perm ((combine_with_content movies cosSim recs).map Prod.fst)
        (recs.map Prod.fst)
    ∧ (∀ k : ℚ,
        (combine_with_content movies cosSim recs).filter (fun p => decide (p.2 = k)) =
          (combine_go movies cosSim recs).filter (fun p => decide (p.2 = k))) := by
  refine ⟨rfl, sortByDesc_sorted _ _, ?_, fun k => sortByDesc_filter_key _ k _⟩
  have h1 := (sortByDesc_perm (fun p => p.2) (combine_go movies cosSim recs)).map Prod.fst
  rw [combine_go_fst movies cosSim recs] at h1
  exact h1

/-- C5 counterexample: a predictor exception on a single movie (movie 2) is
not skipped — the whole candidate-generation stage returns `[]`, while the
claimed behaviour would return the successfully scored movie 1. -/
theorem cf_error_counterexample :
    get_cf_recommendations [⟨1, "A", "", ""⟩, ⟨2, "B", "", ""⟩]
        (some (fun _ m => if m = 2 then none else some (3 : ℚ))) 1 1 = []
    ∧ get_cf_recommendations_claim [⟨1, "A", "", ""⟩, ⟨2, "B", "", ""⟩]
        (some (fun _ m => if m = 2 then none else some (3 : ℚ))) 1 1 =
      [((1 : ℕ), (3 : ℚ))] :=
  ⟨by with_unfolding_all decide, by with_unfolding_all decide⟩

/-- C5 (amended): a predictor error on any individual movie aborts candidate
generation and yields the empty list, exactly as total predictor
unavailability does; only when every prediction succeeds does the stage
return the scored movies sorted descending and truncated to `2 n`. -/
theorem cf_per_movie_error_fatal (movies : List Movie)
    (predict : ℕ → ℕ → Option ℚ) (user_id n : ℕ) :
    get_cf_recommendations movies none user_id n = []
    ∧ ((∃ mv ∈ movies, predict user_id mv.movie_id = none) →
        get_cf_recommendations movies (some predict) user_id n = [])
    ∧ (∀ scored, score_all predict user_id movies = some scored →
        get_cf_recommendations movies (some predict) user_id n =
          (sortByDesc (fun p => p.2) scored).take (n * 2)) := by
  have hsome : get_cf_recommendations movies (some predict) user_id n =
      (match score_all predict user_id movies with
        | none => ([] : List (ℕ × ℚ))
        | some cf => (sortByDesc (fun p => p.2) cf).take (n * 2)) := rfl
  refine ⟨rfl, ?_, ?_⟩
  · intro h
    have hnone : score_all predict user_id movies = none :=
      (score_all_eq_none_iff predict user_id movies).mpr h
    rw [hsome, hnone]
  · intro scored hs
    rw [hsome, hs]

/-- C5 witness: concrete runs of all three branches of the amended claim. -/
theorem cf_per_movie_error_fatal_witness :
    (∃ mv ∈ ([⟨1, "A", "", ""⟩, ⟨2, "B", "", ""⟩] : List Movie),
        (if mv.movie_id = 2 then none else some (3 : ℚ)) = none)
    ∧ get_cf_recommendations [⟨1, "A", "", ""⟩, ⟨2, "B", "", ""⟩]
        (some (fun _ m => if m = 2 then none else some (3 : ℚ))) 1 1 = []
    ∧ score_all (fun _ m => some ((m : ℚ))) 1
        [⟨1, "A", "", ""⟩, ⟨2, "B", "", ""⟩] = some [(1, 1), (2, 2)]
    ∧ get_cf_recommendations [⟨1, "A", "", ""⟩, ⟨2, "B", "", ""⟩]
        (some (fun _ m => some ((m : ℚ)))) 1 1 =
      (sortByDesc (fun p => p.2) [((1 : ℕ), (1 : ℚ)), (2, 2)]).take (1 * 2) :=
  ⟨⟨⟨2, "B", "", ""⟩, by with_unfolding_all decide, by with_unfolding_all decide⟩,
   (cf_per_movie_error_fatal [⟨1, "A", "", ""⟩, ⟨2, "B", "", ""⟩]
     (fun _ m => if m = 2 then none else some (3 : ℚ)) 1 1).2.1
     ⟨⟨2, "B", "", ""⟩, by with_unfolding_all decide, by with_unfolding_all decide⟩,
   by with_unfolding_all decide,
   (cf_per_movie_error_fatal [⟨1, "A", "", ""⟩, ⟨2, "B", "", ""⟩]
     (fun _ m => some ((m : ℚ))) 1 1).2.2 [(1, 1), (2, 2)] (by with_unfolding_all decide)⟩

/-- C6: every final score returned by `adjust_recommendations` equals
`0.7 * diversity_adjusted_score + 0.3 * Q(user, movie)` where `Q` is the
candidate's Q-value after the batch's TD update (starting from `0.0` when
the pair had no prior feedback), and the list is re-sorted descending by
this final score. -/
theorem rl_final_score_formula (lr discount : ℚ) (st : QStore) (user_id : ℕ)
    (recs : List (ℕ × ℚ)) (feedback : ℕ → Option ℚ)
    (hnd : (recs.map Prod.fst).Nodup) :
    (adjust_recommendations lr discount st user_id recs feedback).1 =
      sortByDesc (fun p => p.2)
        (recs.map (fun p => (p.1, 7 / 10 * p.2 + 3 / 10 *
          get_q_value (adjust_recommendations lr discount st user_id recs feedback).2
            user_id p.1)))
    ∧ SortedDescBy (fun p => p.2)
        (adjust_recommendations lr discount st user_id recs feedback).1
    ∧ ∀ p ∈ recs,
        (adjust_recommendations lr discount st user_id recs feedback).2 (user_id, p.1) =
          some (td_update lr discount ((st (user_id, p.1)).getD 0)
            ((feedback p.1).getD 0) (batch_next_max st user_id recs)) := by
  have h1 : (adjust_recommendations lr discount st user_id recs feedback).1 =
      sortByDesc (fun p => p.2)
        ((adjust_go lr discount user_id feedback (batch_next_max st user_id recs)
          st recs).1) := rfl
  have h2 : (adjust_recommendations lr discount st user_id recs feedback).2 =
      (adjust_go lr discount user_id feedback (batch_next_max st user_id recs)
        st recs).2 := rfl
  have hstore : ∀ p ∈ recs,
      (adjust_recommendations lr discount st user_id recs feedback).2 (user_id, p.1) =
        some (td_update lr discount ((st (user_id, p.1)).getD 0)
          ((feedback p.1).getD 0) (batch_next_max st user_id recs)) := by
    intro p hp
    rw [h2]
    exact adjust_go_store_mem lr discount user_id feedback
      (batch_next_max st user_id recs) recs st hnd p hp
  have hq : ∀ p ∈ recs,
      get_q_value (adjust_recommendations lr discount st user_id recs feedback).2
          user_id p.1 =
        td_update lr discount (get_q_value st user_id p.1)
          ((feedback p.1).getD 0) (batch_next_max st user_id recs) := by
    intro p hp
    unfold get_q_value
    rw [hstore p hp]
    rfl
  refine ⟨?_, ?_, hstore⟩
  · rw [h1, adjust_go_out_eq_map lr discount user_id feedback
      (batch_next_max st user_id recs) recs st hnd]
    refine (congrArg (sortByDesc (fun p : ℕ × ℚ => p.2)) (List.map_congr_left ?_)).symm
    intro p hp
    rw [hq p hp]
  · rw [h1]
    exact sortByDesc_sorted _ _

/-- C6 witness: a two-candidate batch with distinct movie ids on the empty
store. -/
theorem rl_final_score_formula_witness :
    (([((1 : ℕ), (5 : ℚ)), (2, 3)].map Prod.fst).Nodup)
    ∧ ((adjust_recommendations (1/10) (9/10) (fun _ => none) 1
          [((1 : ℕ), (5 : ℚ)), (2, 3)] (fun _ => none)).1 =
        sortByDesc (fun p => p.2)
          ([((1 : ℕ), (5 : ℚ)), (2, 3)].map (fun p => (p.1, 7 / 10 * p.2 + 3 / 10 *
            get_q_value (adjust_recommendations (1/10) (9/10) (fun _ => none) 1
              [((1 : ℕ), (5 : ℚ)), (2, 3)] (fun _ => none)).2 1 p.1)))
      ∧ SortedDescBy (fun p => p.2)
          (adjust_recommendations (1/10) (9/10) (fun _ => none) 1
            [((1 : ℕ), (5 : ℚ)), (2, 3)] (fun _ => none)).1
      ∧ ∀ p ∈ [((1 : ℕ), (5 : ℚ)), (2, 3)],
          (adjust_recommendations (1/10) (9/10) (fun _ => none) 1
            [((1 : ℕ), (5 : ℚ)), (2, 3)] (fun _ => none)).2 (1, p.1) =
            some (td_update (1/10) (9/10)
              (((fun _ => (none : Option ℚ)) ((1 : ℕ), p.1)).getD 0)
              (((fun _ => (none : Option ℚ)) p.1).getD 0)
              (batch_next_max (fun _ => none) 1 [((1 : ℕ), (5 : ℚ)), (2, 3)]))) :=
  ⟨by with_unfolding_all decide,
   rl_final_score_formula (1/10) (9/10) (fun _ => none) 1
     [((1 : ℕ), (5 : ℚ)), (2, 3)] (fun _ => none) (by with_unfolding_all decide)⟩

/-- C7: in the fusion loop every candidate's combined score is exactly
`0.6 * boosted_score + 0.4 * content_score`, with `content_score` the
similarity value of the single best match returned by the similarity index
for that movie (`0` when the index returns nothing); the index query for one
best match returns at most one entry. -/
theorem content_fusion_formula (movies : List Movie)
    (cosSim : Option (ℕ → ℕ → ℚ)) (recs : List (ℕ × ℚ)) :
    combine_go movies cosSim recs =
      recs.map (fun p => (p.1,
        6 / 10 * p.2 + 4 / 10 *
          (((get_similar_movies movies cosSim p.1 1).head?.map
            (fun e => e.similarity_score)).getD 0)))
    ∧ (∀ m, (get_similar_movies movies cosSim m 1).length ≤ 1) :=
  ⟨combine_go_eq_map movies cosSim recs,
   fun m => get_similar_movies_length_le movies cosSim m 1⟩

/-- C8 counterexample: with `Q_before = 1`, `lr = 0.1`, `discount = 0.9`,
`reward = 1.0` and `next_max = Q_before`, `update_q_value` returns
`1.09`, not `Q_before + 0.1 = 1.1`. -/
theorem q_update_formula_counterexample :
    (update_q_value (1/10) (9/10)
        (fun k => if k = ((1 : ℕ), (1 : ℕ)) then some 1 else none) 1 1 1 1).1 ≠
      (1 : ℚ) + 1/10
    ∧ (update_q_value (1/10) (9/10)
        (fun k => if k = ((1 : ℕ), (1 : ℕ)) then some 1 else none) 1 1 1 1).1 =
      109/100 :=
  ⟨by with_unfolding_all decide, by with_unfolding_all decide⟩

/-- C8 (amended): with `lr = 0.1`, `discount = 0.9`, `reward = 1.0` and
`next_max = Q_before`, the update returns
`Q_before + 0.1 * (1 + 0.9 * Q_before - Q_before) = 0.99 * Q_before + 0.1`,
which equals `Q_before + 0.1` exactly when `Q_before = 0`. -/
theorem q_update_controlled (st : QStore) (user_id movie_id : ℕ) (q : ℚ)
    (hq : get_q_value st user_id movie_id = q) :
    (update_q_value (1/10) (9/10) st user_id movie_id 1 q).1 = 99/100 * q + 1/10
    ∧ ((update_q_value (1/10) (9/10) st user_id movie_id 1 q).1 = q + 1/10 ↔ q = 0) := by
  have h1 : (update_q_value (1/10) (9/10) st user_id movie_id 1 q).1 =
      q + 1/10 * (1 + 9/10 * q - q) := by
    unfold update_q_value td_update
    rw [hq]
  constructor
  · rw [h1]; ring
  · rw [h1]
    constructor
    · intro h; linarith
    · intro h; rw [h]; ring

/-- C8 witness: the amended formula at `Q_before = 1`. -/
theorem q_update_controlled_witness :
    get_q_value (fun k => if k = ((1 : ℕ), (1 : ℕ)) then some 1 else none) 1 1 = 1
    ∧ ((update_q_value (1/10) (9/10)
          (fun k => if k = ((1 : ℕ), (1 : ℕ)) then some 1 else none) 1 1 1 1).1 =
        99/100 * 1 + 1/10
      ∧ ((update_q_value (1/10) (9/10)
            (fun k => if k = ((1 : ℕ), (1 : ℕ)) then some 1 else none) 1 1 1 1).1 =
          1 + 1/10 ↔ (1 : ℚ) = 0)) :=
  ⟨by with_unfolding_all decide,
   q_update_controlled (fun k => if k = ((1 : ℕ), (1 : ℕ)) then some 1 else none)
     1 1 1 (by with_unfolding_all decide)⟩

/-- C9: `next_max` is computed once from the pre-update Q-values and is
permutation-invariant; for candidate lists with pairwise-distinct movie ids,
permuting the input changes neither the final Q-store nor the multiset of
returned `(movie_id, adjusted_score)` pairs. -/
theorem rl_batch_permutation_invariant (lr discount : ℚ) (st : QStore)
    (user_id : ℕ) (feedback : ℕ → Option ℚ) (l₁ l₂ : List (ℕ × ℚ))
    (hperm : List.Perm l₁ l₂) (hnd : (l₁.map Prod.fst).Nodup) :
    batch_next_max st user_id l₁ = batch_next_max st user_id l₂
    ∧ (adjust_recommendations lr discount st user_id l₁ feedback).2 =
        (adjust_recommendations lr discount st user_id l₂ feedback).2
    ∧ List.Perm (adjust_recommendations lr discount st user_id l₁ feedback).1
        (adjust_recommendations lr discount st user_id l₂ feedback).1 := by
  have hnd2 : (l₂.map Prod.fst).Nodup := ((hperm.map Prod.fst).nodup_iff).mp hnd
  have hnm : batch_next_max st user_id l₁ = batch_next_max st user_id l₂ := by
    unfold batch_next_max
    rw [list_max?_perm (hperm.map _)]
  refine ⟨hnm, ?_, ?_⟩
  · funext k
    have e1 : (adjust_recommendations lr discount st user_id l₁ feedback).2 =
        (adjust_go lr discount user_id feedback (batch_next_max st user_id l₁)
          st l₁).2 := rfl
    have e2 : (adjust_recommendations lr discount st user_id l₂ feedback).2 =
        (adjust_go lr discount user_id feedback (batch_next_max st user_id l₂)
          st l₂).2 := rfl
    rw [e1, e2, hnm]
    by_cases hk : ∃ p ∈ l₁, k = (user_id, p.1)
    · obtain ⟨p, hp, rfl⟩ := hk
      rw [adjust_go_store_mem lr discount user_id feedback
          (batch_next_max st user_id l₂) l₁ st hnd p hp,
        adjust_go_store_mem lr discount user_id feedback
          (batch_next_max st user_id l₂) l₂ st hnd2 p (hperm.mem_iff.mp hp)]
    · push_neg at hk
      have hk1 : ∀ m ∈ l₁.map Prod.fst, k ≠ (user_id, m) := by
        intro m hm
        obtain ⟨p, hp, rfl⟩ := List.mem_map.mp hm
        exact hk p hp
      have hk2 : ∀ m ∈ l₂.map Prod.fst, k ≠ (user_id, m) := by
        intro m hm
        obtain ⟨p, hp, rfl⟩ := List.mem_map.mp hm
        exact hk p (hperm.mem_iff.mpr hp)
      rw [adjust_go_store_untouched lr discount user_id feedback
          (batch_next_max st user_id l₂) l₁ st k hk1,
        adjust_go_store_untouched lr discount user_id feedback
          (batch_next_max st user_id l₂) l₂ st k hk2]
  · have o1 : (adjust_recommendations lr discount st user_id l₁ feedback).1 =
        sortByDesc (fun p => p.2)
          ((adjust_go lr discount user_id feedback (batch_next_max st user_id l₁)
            st l₁).1) := rfl
    have o2 : (adjust_recommendations lr discount st user_id l₂ feedback).1 =
        sortByDesc (fun p => p.2)
          ((adjust_go lr discount user_id feedback (batch_next_max st user_id l₂)
            st l₂).1) := rfl
    rw [o1, o2, hnm,
      adjust_go_out_eq_map lr discount user_id feedback
        (batch_next_max st user_id l₂) l₁ st hnd,
      adjust_go_out_eq_map lr discount user_id feedback
        (batch_next_max st user_id l₂) l₂ st hnd2]
    exact (sortByDesc_perm _ _).trans ((hperm.map _).trans (sortByDesc_perm _ _).symm)

/-- C9 witness: swapping a concrete two-candidate batch. -/
theorem rl_batch_permutation_invariant_witness :
    List.Perm [((1 : ℕ), (5 : ℚ)), (2, 3)] [((2 : ℕ), (3 : ℚ)), (1, 5)]
    ∧ (([((1 : ℕ), (5 : ℚ)), (2, 3)].map Prod.fst).Nodup)
    ∧ (batch_next_max (fun _ => none) 1 [((1 : ℕ), (5 : ℚ)), (2, 3)] =
        batch_next_max (fun _ => none) 1 [((2 : ℕ), (3 : ℚ)), (1, 5)]
      ∧ (adjust_recommendations (1/10) (9/10) (fun _ => none) 1
            [((1 : ℕ), (5 : ℚ)), (2, 3)] (fun _ => none)).2 =
          (adjust_recommendations (1/10) (9/10) (fun _ => none) 1
            [((2 : ℕ), (3 : ℚ)), (1, 5)] (fun _ => none)).2
      ∧ List.Perm
          (adjust_recommendations (1/10) (9/10) (fun _ => none) 1
            [((1 : ℕ), (5 : ℚ)), (2, 3)] (fun _ => none)).1
          (adjust_recommendations (1/10) (9/10) (fun _ => none) 1
            [((2 : ℕ), (3 : ℚ)), (1, 5)] (fun _ => none)).1) :=
  ⟨by with_unfolding_all decide, by with_unfolding_all decide,
   rl_batch_permutation_invariant (1/10) (9/10) (fun _ => none) 1 (fun _ => none)
     [((1 : ℕ), (5 : ℚ)), (2, 3)] [((2 : ℕ), (3 : ℚ)), (1, 5)]
     (by with_unfolding_all decide) (by with_unfolding_all decide)⟩

/-- C10: with non-empty popularity data, both fairness re-rankers return
exactly the distinct movie ids of the input (duplicates collapsed), with no
id repeated, sorted descending by adjusted score; with empty popularity data
the input is returned verbatim, duplicates included. -/
theorem fairness_rerank_dedups_and_sorts (ratings recs : List ℕ)
    (predicted_scores : ℕ → Option ℚ) (alpha beta lambda_factor : ℚ)
    (h : ratings ≠ []) :
    ((re_rank_fair ratings recs predicted_scores alpha beta).Nodup
      ∧ (∀ m, m ∈ re_rank_fair ratings recs predicted_scores alpha beta ↔ m ∈ recs)
      ∧ SortedDescBy (fair_adjusted_score ratings predicted_scores alpha beta)
          (re_rank_fair ratings recs predicted_scores alpha beta))
    ∧ ((re_rank_recommendations ratings recs predicted_scores lambda_factor).Nodup
      ∧ (∀ m, m ∈ re_rank_recommendations ratings recs predicted_scores lambda_factor
            ↔ m ∈ recs)
      ∧ SortedDescBy (fun movie => (predicted_scores movie).getD 0 -
            lambda_factor * ((ratings.count movie : ℚ) / (max_popularity ratings : ℚ)))
          (re_rank_recommendations ratings recs predicted_scores lambda_factor))
    ∧ (∀ (recs2 : List ℕ) (scores2 : ℕ → Option ℚ) (a2 b2 l2 : ℚ),
        re_rank_fair [] recs2 scores2 a2 b2 = recs2
        ∧ re_rank_recommendations [] recs2 scores2 l2 = recs2) := by
  rcases ratings with _ | ⟨r, rs⟩
  · exact absurd rfl h
  · have hf : re_rank_fair (r :: rs) recs predicted_scores alpha beta =
        sortByDesc (fair_adjusted_score (r :: rs) predicted_scores alpha beta)
          (first_dedup recs) := rfl
    have hr : re_rank_recommendations (r :: rs) recs predicted_scores lambda_factor =
        sortByDesc (fun movie => (predicted_scores movie).getD 0 -
            lambda_factor * (((r :: rs).count movie : ℚ) / (max_popularity (r :: rs) : ℚ)))
          (first_dedup recs) := rfl
    refine ⟨⟨?_, ?_, ?_⟩, ⟨?_, ?_, ?_⟩, ?_⟩
    · rw [hf]; exact sortByDesc_nodup _ (first_dedup_nodup recs)
    · intro m
      rw [hf]
      exact (sortByDesc_mem _ _ m).trans (mem_first_dedup recs m)
    · rw [hf]; exact sortByDesc_sorted _ _
    · rw [hr]; exact sortByDesc_nodup _ (first_dedup_nodup recs)
    · intro m
      rw [hr]
      exact (sortByDesc_mem _ _ m).trans (mem_first_dedup recs m)
    · rw [hr]; exact sortByDesc_sorted _ _
    · intro recs2 scores2 a2 b2 l2
      exact ⟨rfl, rfl⟩

/-- C10 witness: ratings `[2, 3]` and a recommendation list with a
duplicated id. -/
theorem fairness_rerank_dedups_and_sorts_witness :
    ([2, 3] : List ℕ) ≠ []
    ∧ ((re_rank_fair [2, 3] [1, 2, 1] (fun m => some ((m : ℚ))) 1 (1/2)).Nodup
      ∧ (∀ m, m ∈ re_rank_fair [2, 3] [1, 2, 1] (fun m => some ((m : ℚ))) 1 (1/2)
            ↔ m ∈ [1, 2, 1])
      ∧ SortedDescBy (fair_adjusted_score [2, 3] (fun m => some ((m : ℚ))) 1 (1/2))
          (re_rank_fair [2, 3] [1, 2, 1] (fun m => some ((m : ℚ))) 1 (1/2)))
    ∧ ((re_rank_recommendations [2, 3] [1, 2, 1] (fun m => some ((m : ℚ))) (1/2)).Nodup
      ∧ (∀ m, m ∈ re_rank_recommendations [2, 3] [1, 2, 1]
              (fun m => some ((m : ℚ))) (1/2) ↔ m ∈ [1, 2, 1])
      ∧ SortedDescBy (fun movie : ℕ => ((fun m => some ((m : ℚ))) movie).getD 0 -
            1/2 * ((([2, 3] : List ℕ).count movie : ℚ) / (max_popularity [2, 3] : ℚ)))
          (re_rank_recommendations [2, 3] [1, 2, 1] (fun m => some ((m : ℚ))) (1/2)))
    ∧ (∀ (recs2 : List ℕ) (scores2 : ℕ → Option ℚ) (a2 b2 l2 : ℚ),
        re_rank_fair [] recs2 scores2 a2 b2 = recs2
        ∧ re_rank_recommendations [] recs2 scores2 l2 = recs2) :=
  ⟨by with_unfolding_all decide,
   (fairness_rerank_dedups_and_sorts [2, 3] [1, 2, 1] (fun m => some ((m : ℚ)))
     1 (1/2) (1/2) (by with_unfolding_all decide)).1,
   (fairness_rerank_dedups_and_sorts [2, 3] [1, 2, 1] (fun m => some ((m : ℚ)))
     1 (1/2) (1/2) (by with_unfolding_all decide)).2.1,
   (fairness_rerank_dedups_and_sorts [2, 3] [1, 2, 1] (fun m => some ((m : ℚ)))
     1 (1/2) (1/2) (by with_unfolding_all decide)).2.2⟩

end RecSys
